import Mathlib

/-!
Shallow embedding of the column attribute inference core of `app.py`
(reinforcement indexer, geometry resolver, record assembler, natural
ordering), together with theorems checking the specification's claims.

Python strings are modelled as Lean `String`/`List Char` (ASCII semantics
for `str.isalnum`/`str.upper`), Python floats as exact rationals `ℚ`,
Python `None` as `Option.none`, and Python dicts as association lists.
-/

unseal Rat.add Rat.mul Rat.inv Rat.sub Rat.ofScientific

/-- ASCII model of Python `str.isalnum` on a single character. -/
def isAlnumChar (c : Char) : Bool := c.isAlpha || c.isDigit

/-- ASCII model of Python `str.upper` on a single character. -/
def pyUpperChar (c : Char) : Char :=
  if 97 ≤ c.toNat ∧ c.toNat ≤ 122 then Char.ofNat (c.toNat - 32) else c

/-- Python truthiness for an optional string (`None` and `""` are falsy). -/
def pyStrOr (o : Option String) (d : String) : String :=
  match o with
  | some s => if s = "" then d else s
  | none => d

/-- Model of `limpar_string` (app.py lines 39-41): `if not texto: return "X"`, then keep
alphanumeric characters and upper-case the result.  The argument is optional
because the Python function is also reachable with `None`. -/
def limpar_string (texto : Option String) : String :=
  match texto with
  | none => "X"
  | some t => if t = "" then "X" else String.mk ((t.data.filter isAlnumChar).map pyUpperChar)

/-- Numeric value of a digit run (the characters are assumed to be `0`-`9`). -/
def natOfDigits (l : List Char) : ℕ :=
  l.foldl (fun n c => n * 10 + (c.toNat - 48)) 0

/-- One reinforcement bar entity: free-text `Name` and optional
`NominalDiameter` (meters), both possibly absent. -/
structure Barra where
  name : Option String
  nominalDiameter : Option ℚ

/-- The reinforcement cache: Python dict from owner token to list of
diameters, modelled as an association list with unique keys. -/
abbrev Cache : Type := List (String × List ℚ)

/-- Dict lookup on the cache. -/
def cacheLookup (cache : Cache) (k : String) : Option (List ℚ) :=
  (List.find? (fun p => p.1 == k) cache).map (fun p => p.2)

/-- Appending `qs` to the entry of key `k` (creating the entry first when
missing), the net effect of app.py lines 76-79. -/
def cacheAppend (cache : Cache) (k : String) (qs : List ℚ) : Cache :=
  if List.any cache (fun p => p.1 == k) then
    List.map (fun p => if p.1 == k then (p.1, p.2 ++ qs) else p) cache
  else cache ++ [(k, qs)]

/-- Model of `re.search(r'^\d+\s+(P\d+)\s', nome)` together with the quantity
match `re.search(r'^(\d+)\s+P', nome)` (app.py lines 53 and 71): on success
returns the leading quantity, the owner token `P<digits>`, and the remainder
of the text after the token.  Since the leading part of a successful match
holds only digits and whitespace, the first occurrence of the token substring
is the matched one, so the remainder equals Python's
`nome.split(nome_pilar, 1)[1]`.  The greedy sub-patterns never benefit from
backtracking here (a digit is not whitespace), so maximal munch is exact. -/
def matchOwnerQty (l : List Char) : Option (ℕ × List Char × List Char) :=
  let ds := l.takeWhile Char.isDigit
  if ds.isEmpty then none else
  let r1 := l.dropWhile Char.isDigit
  let ws := r1.takeWhile Char.isWhitespace
  if ws.isEmpty then none else
  match r1.dropWhile Char.isWhitespace with
  | 'P' :: t =>
    let digs := t.takeWhile Char.isDigit
    if digs.isEmpty then none else
    match t.dropWhile Char.isDigit with
    | c :: rest =>
      if c.isWhitespace then some (natOfDigits ds, 'P' :: digs, c :: rest) else none
    | [] => none
  | _ => none

/-- Decimal parse at a position whose head is a digit: maximal digit run,
a dot, then a non-empty maximal digit run — the shape matched by
`[0-9]+\.[0-9]+` when anchored at this position. -/
def parseDecAt (l : List Char) : Option ℚ :=
  let d1 := l.takeWhile Char.isDigit
  match l.dropWhile Char.isDigit with
  | '.' :: r2 =>
    let d2 := r2.takeWhile Char.isDigit
    if d2.isEmpty then none
    else some ((natOfDigits d1 : ℚ) + (natOfDigits d2 : ℚ) / ((10 : ℚ) ^ d2.length))
  | _ => none

/-- Model of `re.search(r'([0-9]+\.[0-9]+)', resto)` (app.py line 61): value of
the left-most match.  Starting a match in the middle of a digit run succeeds
exactly when starting at the run's head does (same run end, same following
characters), so advancing one character at a time is faithful. -/
def firstDecimal : List Char → Option ℚ
  | [] => none
  | c :: t =>
    if c.isDigit then
      match parseDecAt (c :: t) with
      | some q => some q
      | none => firstDecimal t
    else firstDecimal t

/-- Diameter resolution of app.py lines 57-68 given the text after the owner
token and the bar's `NominalDiameter`: the first decimal number in the
remainder, falling back to `NominalDiameter * 1000` when that left `bitola`
at `0.0` and the attribute is truthy.  The `try/except` cannot fire in the
reachable states (the token substring is always present), so it is omitted. -/
def bitolaSource (resto : List Char) (nd : Option ℚ) : ℚ :=
  let bitola0 : ℚ :=
    match firstDecimal resto with
    | some q => q
    | none => 0
  if bitola0 = 0 then
    match nd with
    | some d => if d ≠ 0 then d * 1000 else bitola0
    | none => bitola0
  else bitola0

/-- One iteration of the loop of `indexar_todas_armaduras`
(app.py lines 49-79) on the running cache. -/
def indexStep (cache : Cache) (bar : Barra) : Cache :=
  match bar.name with
  | none => cache
  | some nome =>
    if nome = "" then cache else
    match matchOwnerQty nome.data with
    | none => cache
    | some (qtd, tok, resto) =>
      let bitola := bitolaSource resto bar.nominalDiameter
      if bitola > 0 then cacheAppend cache (String.mk tok) (List.replicate qtd bitola)
      else cache

/-- Model of `indexar_todas_armaduras` (app.py lines 44-79): the previous global cache
is discarded (`CACHE_ARMADURAS_POR_NOME = {}`, line 46) and the bar set is
folded into a fresh cache. -/
def indexar_todas_armaduras (prev : Cache) (barras : List Barra) : Cache :=
  barras.foldl indexStep ([] : Cache)

/-- Round-half-up model of float rounding (ties only matter at exact
half-way points, which no claim exercises). -/
def roundQ (q : ℚ) : ℤ := ⌊q + 1 / 2⌋

/-- Model of Python's `f"{q:.1f}"` for the rationals arising here. -/
def formatRat1 (q : ℚ) : String :=
  let n := roundQ (q * 10)
  toString (n / 10) ++ "." ++ toString (n % 10)

/-- Descending insertion for rationals. -/
def insertDescQ (x : ℚ) : List ℚ → List ℚ
  | [] => [x]
  | y :: t => if x ≥ y then x :: y :: t else y :: insertDescQ x t

/-- Descending sort for rationals, used to model
`sorted(c.items(), key=..., reverse=True)`. -/
def sortDescQ (l : List ℚ) : List ℚ := l.foldr insertDescQ []

/-- Model of `obter_armadura_do_cache` (app.py lines 81-86): missing key yields the
manual-check sentinel, otherwise the multiset is grouped by value
(`Counter`), the distinct values sorted descending, and each group rendered
as `"<count> ø<value:.1f>"`, joined by `" + "`. -/
def obter_armadura_do_cache (cache : Cache) (nome_pilar : String) : String :=
  match cacheLookup cache nome_pilar with
  | none => "Verificar Detalhamento"
  | some lista =>
    let keys := sortDescQ lista.dedup
    String.intercalate " + "
      (keys.map (fun d => toString (lista.count d) ++ " ø" ++ formatRat1 d))

/-- A node of the polymorphic IFC geometry tree walked by `coletar_pontos`
(app.py lines 121-139).  `point` is an `IfcCartesianPoint` with its
`Coordinates` tuple; `seq` is a Python list/tuple; `entity` is any other
entity, carrying the values of whichever of the twelve fixed child
attributes (`Points`, `OuterCurve`, ..., `SweptArea`) are present, in the
source's iteration order; `null` stands for Python `None` and for objects
without `is_a`, which the traversal skips. -/
inductive GeoItem where
  | null : GeoItem
  | point (coords : List ℚ) : GeoItem
  | seq (items : List GeoItem) : GeoItem
  | entity (children : List GeoItem) : GeoItem

mutual

/-- `coletar_pontos`: a point with at least three coordinates contributes
`(c[0], c[1], c[2])`; lists and composite entities are traversed
recursively; everything else contributes nothing. -/
def coletar : GeoItem → List (ℚ × ℚ × ℚ)
  | .null => []
  | .point cs =>
    match cs with
    | x :: y :: z :: _ => [(x, y, z)]
    | _ => []
  | .seq items => coletarList items
  | .entity children => coletarList children

/-- Traversal of a list of geometry nodes, left to right. -/
def coletarList : List GeoItem → List (ℚ × ℚ × ℚ)
  | [] => []
  | i :: t => coletar i ++ coletarList t

end

/-- One entry of `pilar.Representation.Representations`:
`RepresentationIdentifier` and `Items`. -/
structure Representacao where
  identifier : String
  items : List GeoItem

/-- An `IfcColumn` as read by the core: `GlobalId`, optional `Name`, the name
of the containing storey when `ContainedInStructure` is non-empty, the
optional `Representation` tree, and the property sets returned by
`get_psets` (each a dict of numeric values). -/
structure Column where
  globalId : String
  name : Option String
  storey : Option String
  representation : Option (List Representacao)
  psets : List (String × List (String × ℚ))

/-- Python `d.get(k)` on a numeric dict. -/
def dget (d : List (String × ℚ)) (k : String) : Option ℚ :=
  (List.find? (fun p => p.1 == k) d).map (fun p => p.2)

/-- Python `a or b` for optional numbers (`None` and `0.0` are falsy). -/
def pyOrQ (a b : Option ℚ) : Option ℚ :=
  match a with
  | some v => if v ≠ 0 then some v else b
  | none => b

/-- Python truthiness of an optional number. -/
def truthyQ : Option ℚ → Bool
  | some v => v != 0
  | none => false

/-- Model of Python's `f"{v:.0f}"` for the rationals arising here. -/
def fmt0 (v : ℚ) : String := toString (roundQ v)

/-- Result dictionary of `extrair_dados_geometricos` (app.py lines 94-101). -/
structure GeoResult where
  secao : String
  altura : ℚ
  coord_x : ℚ
  coord_y : ℚ
  largura_cm : ℚ
  profundidade_cm : ℚ
deriving DecidableEq

/-- The initial result dictionary (app.py lines 94-101). -/
def resultadoInicial : GeoResult :=
  { secao := "N/A", altura := 0, coord_x := 0, coord_y := 0
    largura_cm := 0, profundidade_cm := 0 }

/-- The (width, depth) pair the property-set path of
`extrair_dados_geometricos` recognizes (app.py lines 104-109): the
`TQS_Geometria` bag, each dimension read under either alias
(`Dimensao_b1`/`B`, `Dimensao_h1`/`H`) with Python `or` truthiness, and both
values truthy. -/
def psetDims (psets : List (String × List (String × ℚ))) : Option (ℚ × ℚ) :=
  match (List.find? (fun p => p.1 == "TQS_Geometria") psets).map (fun p => p.2) with
  | none => none
  | some d =>
    match pyOrQ (dget d "Dimensao_b1") (dget d "B"),
          pyOrQ (dget d "Dimensao_h1") (dget d "H") with
    | some b, some h => if b ≠ 0 ∧ h ≠ 0 then some (b, h) else none
    | _, _ => none

/-- Lines 110-114 of app.py: the two recognized dimension values are sorted
ascending and *both* are scaled by 100 when the smaller one is below 3.0. -/
def psetResultado (b h : ℚ) : GeoResult :=
  let v0 := min b h
  let v1 := max b h
  let w : ℚ × ℚ := if v0 < 3 then (v0 * 100, v1 * 100) else (v0, v1)
  { resultadoInicial with
      secao := fmt0 w.1 ++ "x" ++ fmt0 w.2
      largura_cm := w.1, profundidade_cm := w.2 }

/-- Step 1 of `extrair_dados_geometricos` (app.py lines 103-114): the
property-set path, leaving the initial dictionary untouched when it does not
recognize both dimensions. -/
def resultadoPset (psets : List (String × List (String × ℚ))) : GeoResult :=
  match psetDims psets with
  | none => resultadoInicial
  | some (b, h) => psetResultado b h

/-- Points collected from the representations whose identifier is in
`['Body', 'Mesh', 'Box', 'Facetation']` (app.py lines 141-144). -/
def coletarReps (reps : List Representacao) : List (ℚ × ℚ × ℚ) :=
  (reps.filter (fun rep =>
      rep.identifier == "Body" || rep.identifier == "Mesh" ||
      rep.identifier == "Box" || rep.identifier == "Facetation")).foldr
    (fun rep acc => coletarList rep.items ++ acc) []

/-- All points collected for a column (empty when it has no representation). -/
def coletarColuna (pilar : Column) : List (ℚ × ℚ × ℚ) :=
  match pilar.representation with
  | none => []
  | some reps => coletarReps reps

/-- Minimum of a non-empty list given as head and tail. -/
def qmin (x : ℚ) (l : List ℚ) : ℚ := l.foldl min x

/-- Maximum of a non-empty list given as head and tail. -/
def qmax (x : ℚ) (l : List ℚ) : ℚ := l.foldl max x

/-- Python `round(q, k)` (ties modelled half-up; no claim sits on a tie). -/
def roundTo (k : ℕ) (q : ℚ) : ℚ := (roundQ (q * 10 ^ k) : ℚ) / 10 ^ k

/-- Raw bounding-box width `max_x - min_x` (app.py lines 148, 152) of the
non-empty point list `p :: t`. -/
def boxW (p : ℚ × ℚ × ℚ) (t : List (ℚ × ℚ × ℚ)) : ℚ :=
  qmax p.1 (t.map fun q => q.1) - qmin p.1 (t.map fun q => q.1)

/-- Raw bounding-box depth `max_y - min_y` (app.py lines 149, 153). -/
def boxD (p : ℚ × ℚ × ℚ) (t : List (ℚ × ℚ × ℚ)) : ℚ :=
  qmax p.2.1 (t.map fun q => q.2.1) - qmin p.2.1 (t.map fun q => q.2.1)

/-- Raw bounding-box height `max_z - min_z` (app.py lines 150, 154). -/
def boxH (p : ℚ × ℚ × ℚ) (t : List (ℚ × ℚ × ℚ)) : ℚ :=
  qmax p.2.2 (t.map fun q => q.2.2) - qmin p.2.2 (t.map fun q => q.2.2)

/-- The per-axis unit heuristic of app.py lines 162-163: a value below 3.0
is meters and is scaled to centimeters. -/
def normaliza (v : ℚ) : ℚ := if v < 3 then v * 100 else v

/-- Lines 146-174 of app.py for a non-empty collected point list `p :: t`:
centroid and height always overwrite the running dictionary; the section
string and the two dimension fields are overwritten only when the
property-set path left `secao` at `"N/A"`.  Width and depth are normalized
independently and then sorted. -/
def extrairBox (resultado : GeoResult) (p : ℚ × ℚ × ℚ) (t : List (ℚ × ℚ × ℚ)) :
    GeoResult :=
  let r2 :=
    { resultado with
        coord_x := roundTo 2 ((qmin p.1 (t.map fun q => q.1)
                                + qmax p.1 (t.map fun q => q.1)) / 2)
        coord_y := roundTo 2 ((qmin p.2.1 (t.map fun q => q.2.1)
                                + qmax p.2.1 (t.map fun q => q.2.1)) / 2)
        altura := roundTo 2 (boxH p t) }
  let d0 := min (normaliza (boxW p t)) (normaliza (boxD p t))
  let d1 := max (normaliza (boxW p t)) (normaliza (boxD p t))
  if r2.secao = "N/A" then
    { r2 with
        secao := fmt0 d0 ++ "x" ++ fmt0 d1
        largura_cm := d0, profundidade_cm := d1 }
  else r2

/-- Model of `extrair_dados_geometricos` (app.py lines 90-176): property-set path,
then the bounding-box scan over the representation tree.  The blanket
`try/except` around the box computation cannot fire in this model (min/max
of the non-empty coordinate lists always exist), so it is omitted. -/
def extrair_dados_geometricos (pilar : Column) : GeoResult :=
  match pilar.representation with
  | none => resultadoPset pilar.psets
  | some reps =>
    match coletarReps reps with
    | [] => resultadoPset pilar.psets
    | p :: t => extrairBox (resultadoPset pilar.psets) p t

/-- Whether the property-set path succeeds (both dimensions truthy), i.e.
whether lines 109-114 of app.py run. -/
def psetHasDims (psets : List (String × List (String × ℚ))) : Bool :=
  (psetDims psets).isSome

/-- Model of `extrair_material` (app.py lines 178-186): the associated material name,
defaulting to `"Concreto"`. -/
def extrair_material (material : Option String) : String :=
  match material with
  | some m => m
  | none => "Concreto"

/-- One piece of the key produced by `natural_keys`: either a digit run
converted with `int(...)` or a non-digit segment. -/
inductive NatKey where
  | num (n : ℕ) : NatKey
  | str (s : List Char) : NatKey
deriving DecidableEq

/-- Prepending one character to a decomposition of the following characters
into maximal runs of digits (`true`) and non-digits (`false`). -/
def addCharRun (c : Char) : List (Bool × List Char) → List (Bool × List Char)
  | [] => [(c.isDigit, [c])]
  | (b, run) :: rest =>
    if b == c.isDigit then (b, c :: run) :: rest
    else (c.isDigit, [c]) :: (b, run) :: rest

/-- Decomposition of a character list into maximal runs of digits and
non-digits, in order. -/
def digitRuns (l : List Char) : List (Bool × List Char) := l.foldr addCharRun []

/-- Each digit run becomes `int(run)`, each non-digit run stays text. -/
def runsToKeys : List (Bool × List Char) → List NatKey
  | [] => []
  | (true, r) :: rest => .num (natOfDigits r) :: runsToKeys rest
  | (false, r) :: rest => .str r :: runsToKeys rest

/-- Model of `natural_keys` (app.py lines 189-190), i.e. the pieces of
`re.split(r'(\d+)', text)` with digit groups converted by `int(...)`:
`re.split` with a capturing group emits an empty leading segment when the
text starts with a digit, an empty trailing segment when it ends with one,
and `['']` for empty text. -/
def natural_keys (text : String) : List NatKey :=
  let rs := digitRuns text.data
  let mid := runsToKeys rs
  let withLead :=
    match rs with
    | (true, _) :: _ => NatKey.str [] :: mid
    | _ => mid
  match rs.getLast? with
  | some (true, _) => withLead ++ [NatKey.str []]
  | some (false, _) => withLead
  | none => [NatKey.str []]

/-- Python `<` on strings (lexicographic by code point), on char lists. -/
def charListLt : List Char → List Char → Bool
  | _, [] => false
  | [], _ :: _ => true
  | a :: s, b :: t => a.toNat < b.toNat || (a == b && charListLt s t)

/-- Python `<` on the pieces of a natural key.  Pieces at equal positions
always have the same shape (segments alternate starting with a non-digit
segment), so the mixed cases are unreachable; they are given arbitrary
values to stay total. -/
def natKeyLt : NatKey → NatKey → Bool
  | .num a, .num b => a < b
  | .str a, .str b => charListLt a b
  | .num _, .str _ => true
  | .str _, .num _ => false

/-- Python `<` on lists of key pieces (elementwise, prefix is smaller). -/
def natKeysLt : List NatKey → List NatKey → Bool
  | _, [] => false
  | [], _ :: _ => true
  | a :: s, b :: t => natKeyLt a b || (!natKeyLt b a && natKeysLt s t)

/-- One output row of `processar_ifc` (app.py lines 225-240). -/
structure Registro where
  idUnico : String
  projetoRef : String
  nome : String
  secao : String
  alturaM : ℚ
  volumeConcretoM3 : ℚ
  material : String
  armadura : String
  pavimento : String
  coordX : ℚ
  coordY : ℚ
  status : String
  dataConferencia : String
  responsavel : String
deriving DecidableEq

/-- The composite key of app.py line 212:
`f"{sufixo_nome}-{guid}-{sufixo_pav}-{id_projeto_input}"`. -/
def id_unico_pilar (nome : String) (guid : String) (pavimento : String)
    (idProjeto : String) : String :=
  limpar_string (some nome) ++ "-" ++ guid ++ "-" ++ limpar_string (some pavimento)
    ++ "-" ++ idProjeto

/-- Loop body of `processar_ifc` (app.py lines 201-240) for one column,
given the reinforcement cache built beforehand.  The material association
(`get_material`) lives outside the modelled graph, so the record carries
`extrair_material`'s default `"Concreto"`; no claim concerns it. -/
def montarRegistro (cache : Cache) (idProjeto : String) (pilar : Column) : Registro :=
  let nome := pyStrOr pilar.name "S/N"
  let pavimento := pilar.storey.getD "Térreo"
  let geo := extrair_dados_geometricos pilar
  let volume :=
    if geo.largura_cm > 0 ∧ geo.profundidade_cm > 0 ∧ geo.altura > 0 then
      roundTo 3 ((geo.largura_cm / 100) * (geo.profundidade_cm / 100) * geo.altura)
    else 0
  { idUnico := id_unico_pilar nome pilar.globalId pavimento idProjeto
    projetoRef := idProjeto
    nome := nome
    secao := geo.secao
    alturaM := geo.altura
    volumeConcretoM3 := volume
    material := "Concreto"
    armadura := obter_armadura_do_cache cache nome
    pavimento := pavimento
    coordX := geo.coord_x
    coordY := geo.coord_y
    status := "A CONFERIR"
    dataConferencia := ""
    responsavel := "" }

/-- Python `<` on the sort key `(x['Pavimento'], natural_keys(x['Nome']))`
(app.py line 242). -/
def registroLt (a b : Registro) : Bool :=
  charListLt a.pavimento.data b.pavimento.data ||
    (a.pavimento == b.pavimento &&
      natKeysLt (natural_keys a.nome) (natural_keys b.nome))

/-- Stable insertion of a record into an already sorted list: the record goes
after every strictly smaller record and before the first record that is not
strictly smaller, preserving the original order of equal keys (as Python's
stable sort does when combined with the fold below). -/
def insertRegistro (x : Registro) : List Registro → List Registro
  | [] => [x]
  | c :: t => if registroLt c x then c :: insertRegistro x t else x :: c :: t

/-- Insertion sort by the tuple key, modelling `dados.sort(key=...)`. -/
def sortRegistros (l : List Registro) : List Registro := l.foldr insertRegistro []

/-- An IFC file as seen by the core: its reinforcing bars and its columns. -/
structure IfcFile where
  barras : List Barra
  pilares : List Column

/-- Model of `processar_ifc` (app.py lines 192-243): index all bars eagerly, assemble
one record per column, and sort by floor then natural column name. -/
def processar_ifc (file : IfcFile) (idProjeto : String) : List Registro :=
  let cache := indexar_todas_armaduras [] file.barras
  sortRegistros (file.pilares.map (montarRegistro cache idProjeto))

/-! ## Helper lemmas -/

/-- The owner token a bar contributes under, mirroring the case path of
`indexStep` up to the token match. -/
def ownerToken (bar : Barra) : Option String :=
  match bar.name with
  | none => none
  | some nome =>
    if nome = "" then none
    else (matchOwnerQty nome.data).map (fun x => String.mk x.2.1)

/-- The nominal-diameter fallback in millimeters: defined when the physical
attribute is present and truthy (`NominalDiameter * 1000`, app.py line 68). -/
def nominalMm (nd : Option ℚ) : Option ℚ :=
  match nd with
  | some d => if d ≠ 0 then some (d * 1000) else none
  | none => none

/-- The two-step first-nonzero-wins diameter chain actually implemented by
app.py lines 59-68: the first decimal number in the text after the owner
token when it parses to a nonzero value, otherwise the nominal-diameter
attribute in millimeters. -/
def chainCD (resto : List Char) (nd : Option ℚ) : Option ℚ :=
  match firstDecimal resto with
  | some q => if q ≠ 0 then some q else nominalMm nd
  | none => nominalMm nd

/-- Modelled from the spec: step (b) of the claimed diameter chain, "a
generic diameter glyph followed by a decimal number", with the glyph the
program itself prints (`ø`, app.py line 86).  No such step exists in
`indexar_todas_armaduras`. -/
def specGlyphDiameter : List Char → Option ℚ
  | [] => none
  | c :: t => if c = 'ø' then parseDecAt t else specGlyphDiameter t

/-- Modelled from the spec: the ordered first-success diameter chain the
claim describes, from step (b) on (step (a)'s authoring-tool control
sequence is given no concrete syntax by the spec and the inputs compared
contain none, so step (a) never fires on them): the glyph step over the
whole text, then the first decimal after the owner token, then the physical
attribute in millimeters. -/
def specBitolaChain (texto resto : List Char) (nd : Option ℚ) : Option ℚ :=
  match specGlyphDiameter texto with
  | some q => some q
  | none =>
    match firstDecimal resto with
    | some q => some q
    | none => nominalMm nd

theorem cacheLookup_append_single_ne (c : Cache) (k k' : String) (qs : List ℚ)
    (h : k ≠ k') : cacheLookup (c ++ [(k, qs)]) k' = cacheLookup c k' := by
  induction c with
  | nil =>
    have hb : (k == k') = false := beq_eq_false_iff_ne.mpr h
    simp [cacheLookup, List.find?, hb]
  | cons a t ih =>
    by_cases ha : a.1 == k'
    · simp [cacheLookup, List.find?, ha]
    · simp only [cacheLookup, List.cons_append, List.find?, ha] at *
      exact ih

theorem cacheLookup_map_append_ne (c : Cache) (k k' : String) (qs : List ℚ)
    (h : k ≠ k') :
    cacheLookup (List.map (fun p => if p.1 == k then (p.1, p.2 ++ qs) else p) c) k'
      = cacheLookup c k' := by
  induction c with
  | nil => rfl
  | cons a t ih =>
    by_cases ha : a.1 == k'
    · have hak : ¬ (a.1 == k) := by
        intro hk
        exact h (beq_iff_eq.mp hk ▸ beq_iff_eq.mp ha ▸ rfl)
      simp [cacheLookup, List.find?, ha, hak]
    · by_cases hak : a.1 == k
      · simp only [cacheLookup, List.map, List.find?, hak, if_pos] at *
        simpa [ha] using ih
      · simp only [cacheLookup, List.map, List.find?, hak, if_neg] at *
        simpa [ha] using ih

theorem cacheLookup_cacheAppend_ne (c : Cache) (k k' : String) (qs : List ℚ)
    (h : k ≠ k') : cacheLookup (cacheAppend c k qs) k' = cacheLookup c k' := by
  unfold cacheAppend
  split
  · exact cacheLookup_map_append_ne c k k' qs h
  · exact cacheLookup_append_single_ne c k k' qs h

theorem indexStep_lookup_ne (cache : Cache) (bar : Barra) (nome : String)
    (h : ownerToken bar ≠ some nome) :
    cacheLookup (indexStep cache bar) nome = cacheLookup cache nome := by
  obtain ⟨bname, bnd⟩ := bar
  cases bname with
  | none => rfl
  | some nomeB =>
    simp only [ownerToken] at h
    simp only [indexStep]
    by_cases he : nomeB = ""
    · rw [if_pos he]
    · rw [if_neg he] at h ⊢
      cases hm : matchOwnerQty nomeB.data with
      | none => rfl
      | some x =>
        rw [hm] at h
        obtain ⟨qtd, tok, resto⟩ := x
        rw [Option.map_some'] at h
        have htok : String.mk tok ≠ nome := fun hk => h (by simp [hk])
        simp only
        split
        · exact cacheLookup_cacheAppend_ne cache (String.mk tok) nome _ htok
        · rfl

theorem foldl_indexStep_lookup_ne (bars : List Barra) (cache : Cache) (nome : String)
    (h : ∀ bar ∈ bars, ownerToken bar ≠ some nome) :
    cacheLookup (bars.foldl indexStep cache) nome = cacheLookup cache nome := by
  induction bars generalizing cache with
  | nil => rfl
  | cons b t ih =>
    have hb := h b (List.mem_cons_self b t)
    have ht : ∀ bar ∈ t, ownerToken bar ≠ some nome := fun bar hm => h bar (List.mem_cons_of_mem b hm)
    calc cacheLookup ((b :: t).foldl indexStep cache) nome
        = cacheLookup (t.foldl indexStep (indexStep cache b)) nome := rfl
      _ = cacheLookup (indexStep cache b) nome := ih (indexStep cache b) ht
      _ = cacheLookup cache nome := indexStep_lookup_ne cache b nome hb

/-! ## Claims -/

/-- C5: the Reinforcement Index is a pure function of the supplied bar set:
rebuilding on a second set from the state left by a first set yields exactly
the index built on the second set alone, and an owner indexed only in the
first set is absent afterwards, its lookup returning the unresolved
sentinel. -/
theorem C5_theorem :
    (∀ bars1 bars2 : List Barra,
        indexar_todas_armaduras (indexar_todas_armaduras [] bars1) bars2
          = indexar_todas_armaduras [] bars2)
  ∧ (∀ (prev : Cache) (bars : List Barra) (nome : String),
        (∀ bar ∈ bars, ownerToken bar ≠ some nome) →
        obter_armadura_do_cache (indexar_todas_armaduras prev bars) nome
          = "Verificar Detalhamento") := by
  constructor
  · intro bars1 bars2
    rfl
  · intro prev bars nome h
    have hl : cacheLookup (indexar_todas_armaduras prev bars) nome = none := by
      unfold indexar_todas_armaduras
      rw [foldl_indexStep_lookup_ne bars [] nome h]
      rfl
    unfold obter_armadura_do_cache
    rw [hl]

/-- C5 witness: after rebuilding with a bar set owned by `P7`, the owner
`P4` from the discarded first set resolves to the sentinel. -/
theorem C5_witness :
    obter_armadura_do_cache
      (indexar_todas_armaduras
        (indexar_todas_armaduras [] [⟨some "2 P4 10.00", none⟩])
        [⟨some "3 P7 12.50", none⟩]) "P4"
    = "Verificar Detalhamento" :=
  C5_theorem.2 (indexar_todas_armaduras [] [⟨some "2 P4 10.00", none⟩])
    [⟨some "3 P7 12.50", none⟩] "P4" (by decide)

/-- C6: the bar named `"2 P4 10.00"` with no physical attribute indexes the
multiset `[10.0, 10.0]` under owner `P4` (leading `2` is the quantity, the
decimal after the token the diameter), and the lookup renders `"2 ø10.0"`;
the formatter groups by diameter, sorts distinct diameters descending and
joins `"<count> ø<diameter>"` entries with `" + "`, as the second lookup
with mixed diameters shows. -/
theorem C6_theorem :
    cacheLookup (indexar_todas_armaduras [] [⟨some "2 P4 10.00", none⟩]) "P4"
      = some [10, 10]
  ∧ obter_armadura_do_cache (indexar_todas_armaduras [] [⟨some "2 P4 10.00", none⟩]) "P4"
      = "2 ø10.0"
  ∧ obter_armadura_do_cache [("P1", [10, 8, 10])] "P1" = "2 ø10.0 + 1 ø8.0" := by
  refine ⟨by decide, by decide, by decide⟩

/-- C10: a non-empty name with no alphanumeric character sanitizes to the
empty string, not to the `"X"` placeholder; the placeholder arises exactly
for a missing or empty input. -/
theorem C10_theorem :
    (∀ s : String, s ≠ "" → (∀ c ∈ s.data, isAlnumChar c = false) →
      limpar_string (some s) = "")
  ∧ limpar_string none = "X"
  ∧ limpar_string (some "") = "X" := by
  refine ⟨?_, rfl, by decide⟩
  intro s hs hall
  simp only [limpar_string]
  rw [if_neg hs]
  have hf : s.data.filter isAlnumChar = [] := by
    rw [List.filter_eq_nil_iff]
    intro c hc
    simp [hall c hc]
  rw [hf]
  rfl

/-- C10 witness: the concrete name `"---"` sanitizes to the empty string. -/
theorem C10_witness : limpar_string (some "---") = "" :=
  C10_theorem.1 "---" (by decide) (by decide)

theorem cacheLookup_nil_eq (k : String) : cacheLookup [] k = none := rfl

theorem cacheLookup_cacheAppend_nil (k : String) (qs : List ℚ) :
    cacheLookup (cacheAppend [] k qs) k = some qs := by
  simp [cacheAppend, cacheLookup, List.find?]

theorem chainCD_eq_bitola (resto : List Char) (nd : Option ℚ) :
    chainCD resto nd =
      if bitolaSource resto nd = 0 then none else some (bitolaSource resto nd) := by
  unfold chainCD bitolaSource nominalMm
  cases hfd : firstDecimal resto with
  | none =>
    cases nd with
    | none => simp
    | some d =>
      by_cases hd : d = 0
      · simp [hd]
      · have : d * 1000 ≠ 0 := mul_ne_zero hd (by norm_num)
        simp [hd, this]
  | some q =>
    by_cases hq : q = 0
    · subst hq
      cases nd with
      | none => simp
      | some d =>
        by_cases hd : d = 0
        · simp [hd]
        · have : d * 1000 ≠ 0 := mul_ne_zero hd (by norm_num)
          simp [hd, this]
    · simp [hq]

/-- C1 counterexample: on the bar `"2 P4 1.5 ø8.0"` the claimed chain
resolves the glyph-attached diameter `8.0` (step (b) precedes step (c)),
but the code indexes the first decimal after the owner token, `1.5`.  So
diameter resolution is not the claimed four-step chain. -/
theorem C1_counterexample :
    cacheLookup (indexar_todas_armaduras [] [⟨some "2 P4 1.5 ø8.0", none⟩]) "P4"
      = some [mkRat 3 2, mkRat 3 2]
  ∧ specBitolaChain "2 P4 1.5 ø8.0".data " 1.5 ø8.0".data none = some 8
  ∧ (mkRat 3 2 : ℚ) ≠ 8 :=
  ⟨by decide, by decide, by decide⟩

/-- C1 (amended): for every bar whose owner token was found, the diameter is
resolved by a two-step first-nonzero-wins chain — the first decimal number
in the text after the owner token, then the nominal-diameter attribute
times 1000 — and the bar is indexed `quantity` times under the token iff
the resolved diameter is positive; there are no escaped-code or glyph
steps. -/
theorem C1_theorem (nome : String) (nd : Option ℚ) (qtd : ℕ) (tok resto : List Char)
    (h : matchOwnerQty nome.data = some (qtd, tok, resto)) :
    cacheLookup (indexar_todas_armaduras [] [⟨some nome, nd⟩]) (String.mk tok)
      = Option.bind (chainCD resto nd)
          (fun q => if q > 0 then some (List.replicate qtd q) else none) := by
  have he : nome ≠ "" := by
    intro he
    rw [he] at h
    have h0 : matchOwnerQty ("" : String).data = none := by decide
    rw [h0] at h
    exact Option.noConfusion h
  have hstep : indexar_todas_armaduras [] [⟨some nome, nd⟩]
      = if bitolaSource resto nd > 0 then
          cacheAppend [] (String.mk tok) (List.replicate qtd (bitolaSource resto nd))
        else [] := by
    simp only [indexar_todas_armaduras, List.foldl, indexStep, if_neg he, h]
  rw [hstep, chainCD_eq_bitola]
  by_cases h0 : bitolaSource resto nd = 0
  · rw [if_pos h0]
    have hng : ¬ bitolaSource resto nd > 0 := by rw [h0]; norm_num
    rw [if_neg hng]
    rfl
  · rw [if_neg h0]
    show cacheLookup
        (if bitolaSource resto nd > 0 then
          cacheAppend [] (String.mk tok) (List.replicate qtd (bitolaSource resto nd))
        else []) (String.mk tok)
      = if bitolaSource resto nd > 0 then
          some (List.replicate qtd (bitolaSource resto nd)) else none
    by_cases hp : bitolaSource resto nd > 0
    · rw [if_pos hp, if_pos hp, cacheLookup_cacheAppend_nil]
    · rw [if_neg hp, if_neg hp]
      rfl

/-- C1 witness: the amended chain applied to the bar `"2 P4 10.00"`. -/
theorem C1_witness :
    cacheLookup (indexar_todas_armaduras [] [⟨some "2 P4 10.00", none⟩])
        (String.mk ['P', '4'])
      = Option.bind (chainCD " 10.00".data none)
          (fun q => if q > 0 then some (List.replicate 2 q) else none) :=
  C1_theorem "2 P4 10.00" none 2 ['P', '4'] " 10.00".data (by decide)


theorem extrair_eq_pset (pilar : Column) (h : coletarColuna pilar = []) :
    extrair_dados_geometricos pilar = resultadoPset pilar.psets := by
  unfold extrair_dados_geometricos
  unfold coletarColuna at h
  cases hrep : pilar.representation with
  | none => rfl
  | some reps =>
    rw [hrep] at h
    have h' : coletarReps reps = [] := h
    show (match coletarReps reps with
          | [] => resultadoPset pilar.psets
          | p :: t => extrairBox (resultadoPset pilar.psets) p t)
        = resultadoPset pilar.psets
    rw [h']

theorem extrair_eq_box (pilar : Column) (p : ℚ × ℚ × ℚ) (t : List (ℚ × ℚ × ℚ))
    (h : coletarColuna pilar = p :: t) :
    extrair_dados_geometricos pilar = extrairBox (resultadoPset pilar.psets) p t := by
  unfold extrair_dados_geometricos
  unfold coletarColuna at h
  cases hrep : pilar.representation with
  | none =>
    rw [hrep] at h
    have h' : ([] : List (ℚ × ℚ × ℚ)) = p :: t := h
    exact absurd h' (by simp)
  | some reps =>
    rw [hrep] at h
    have h' : coletarReps reps = p :: t := h
    show (match coletarReps reps with
          | [] => resultadoPset pilar.psets
          | p :: t => extrairBox (resultadoPset pilar.psets) p t)
        = extrairBox (resultadoPset pilar.psets) p t
    rw [h']

theorem psetHasDims_of_some (ps : List (String × List (String × ℚ))) (b hv : ℚ)
    (h : psetDims ps = some (b, hv)) : psetHasDims ps = true := by
  unfold psetHasDims
  rw [h]
  rfl

theorem psetHasDims_of_none (ps : List (String × List (String × ℚ)))
    (h : psetDims ps = none) : psetHasDims ps = false := by
  unfold psetHasDims
  rw [h]
  rfl

theorem fmtx_ne_NA (a b : ℚ) : fmt0 a ++ "x" ++ fmt0 b ≠ "N/A" := by
  intro h
  have hx : 'x' ∈ (fmt0 a ++ "x" ++ fmt0 b).data := by
    rw [String.data_append, String.data_append]
    exact List.mem_append.mpr (Or.inl (List.mem_append.mpr (Or.inr (by decide))))
  rw [h] at hx
  exact absurd hx (by decide)

theorem psetResultado_secao (b h : ℚ) :
    (psetResultado b h).secao =
      (if min b h < 3 then fmt0 (min b h * 100) ++ "x" ++ fmt0 (max b h * 100)
       else fmt0 (min b h) ++ "x" ++ fmt0 (max b h)) := by
  by_cases hlt : min b h < 3 <;> simp [psetResultado, hlt]

theorem psetResultado_secao_ne (b h : ℚ) : (psetResultado b h).secao ≠ "N/A" := by
  rw [psetResultado_secao]
  by_cases hlt : min b h < 3
  · rw [if_pos hlt]; exact fmtx_ne_NA _ _
  · rw [if_neg hlt]; exact fmtx_ne_NA _ _

theorem psetResultado_dims (b h : ℚ) :
    (psetResultado b h).largura_cm
        = (if min b h < 3 then min b h * 100 else min b h)
  ∧ (psetResultado b h).profundidade_cm
        = (if min b h < 3 then max b h * 100 else max b h) := by
  by_cases hlt : min b h < 3 <;> simp [psetResultado, hlt]

theorem resultadoPset_of_none (ps : List (String × List (String × ℚ)))
    (h : psetDims ps = none) : resultadoPset ps = resultadoInicial := by
  unfold resultadoPset
  rw [h]

theorem resultadoPset_of_some (ps : List (String × List (String × ℚ))) (b hv : ℚ)
    (h : psetDims ps = some (b, hv)) : resultadoPset ps = psetResultado b hv := by
  unfold resultadoPset
  rw [h]

theorem extrairBox_secao_of_ne (r : GeoResult) (p : ℚ × ℚ × ℚ)
    (t : List (ℚ × ℚ × ℚ)) (h : r.secao ≠ "N/A") :
    (extrairBox r p t).secao = r.secao
  ∧ (extrairBox r p t).largura_cm = r.largura_cm
  ∧ (extrairBox r p t).profundidade_cm = r.profundidade_cm := by
  simp [extrairBox, h]

theorem extrairBox_of_NA (r : GeoResult) (p : ℚ × ℚ × ℚ)
    (t : List (ℚ × ℚ × ℚ)) (h : r.secao = "N/A") :
    (extrairBox r p t).secao
        = fmt0 (min (normaliza (boxW p t)) (normaliza (boxD p t))) ++ "x"
            ++ fmt0 (max (normaliza (boxW p t)) (normaliza (boxD p t)))
  ∧ (extrairBox r p t).largura_cm = min (normaliza (boxW p t)) (normaliza (boxD p t))
  ∧ (extrairBox r p t).profundidade_cm
        = max (normaliza (boxW p t)) (normaliza (boxD p t)) := by
  simp [extrairBox, h]

/-- C3 counterexample: a column with no property bag and a degenerate
bounding box (zero extent in X) yields the section string `"0x100"`, not
the `"N/A"` sentinel. -/
theorem C3_counterexample :
    coletarColuna
      { globalId := "G", name := some "P1", storey := none,
        representation := some [⟨"Body", [.point [0,0,0], .point [0,1,0]]⟩],
        psets := [] } = [(0,0,0), (0,1,0)]
  ∧ (extrair_dados_geometricos
      { globalId := "G", name := some "P1", storey := none,
        representation := some [⟨"Body", [.point [0,0,0], .point [0,1,0]]⟩],
        psets := [] }).secao = "0x100"
  ∧ "0x100" ≠ "N/A" :=
  ⟨by decide, by decide, by decide⟩

/-- C3 (amended): the resolver returns the `"N/A"` sentinel exactly when the
property-set path failed and no coordinate points were collected (in
particular for a column with no representation and no matching property
bag); a degenerate bounding box still produces a formatted section string
with a zero dimension, not `"N/A"`. -/
theorem C3_theorem (pilar : Column) :
    (extrair_dados_geometricos pilar).secao = "N/A"
      ↔ psetHasDims pilar.psets = false ∧ coletarColuna pilar = [] := by
  cases hc : coletarColuna pilar with
  | nil =>
    rw [extrair_eq_pset pilar hc]
    cases hpd : psetDims pilar.psets with
    | some bh =>
      obtain ⟨b, hv⟩ := bh
      rw [resultadoPset_of_some _ _ _ hpd]
      exact iff_of_false (psetResultado_secao_ne b hv)
        (by simp [psetHasDims_of_some _ _ _ hpd])
    | none =>
      rw [resultadoPset_of_none _ hpd]
      exact iff_of_true rfl ⟨psetHasDims_of_none _ hpd, rfl⟩
  | cons p t =>
    rw [extrair_eq_box pilar p t hc]
    cases hpd : psetDims pilar.psets with
    | some bh =>
      obtain ⟨b, hv⟩ := bh
      have hrw := resultadoPset_of_some _ _ _ hpd
      have hsec : (resultadoPset pilar.psets).secao ≠ "N/A" := by
        rw [hrw]; exact psetResultado_secao_ne b hv
      refine iff_of_false ?_ (by simp [psetHasDims_of_some _ _ _ hpd])
      rw [(extrairBox_secao_of_ne (resultadoPset pilar.psets) p t hsec).1]
      exact hsec
    | none =>
      have hrw := resultadoPset_of_none _ hpd
      refine iff_of_false ?_ (by simp)
      rw [(extrairBox_of_NA (resultadoPset pilar.psets) p t (by rw [hrw]; rfl)).1]
      exact fmtx_ne_NA _ _

theorem extrairBox_box_fields (r : GeoResult) (p : ℚ × ℚ × ℚ)
    (t : List (ℚ × ℚ × ℚ)) :
    (extrairBox r p t).altura = roundTo 2 (boxH p t)
  ∧ (extrairBox r p t).coord_x
      = roundTo 2 ((qmin p.1 (t.map fun q => q.1) + qmax p.1 (t.map fun q => q.1)) / 2)
  ∧ (extrairBox r p t).coord_y
      = roundTo 2 ((qmin p.2.1 (t.map fun q => q.2.1)
                     + qmax p.2.1 (t.map fun q => q.2.1)) / 2) := by
  by_cases hna : r.secao = "N/A" <;> simp [extrairBox, hna]

/-- C2 counterexample: on the property-bag path with raw values `0.2` and
`30`, the code scales *both* values by 100 because the smaller is below 3.0,
producing depth `3000`; independent normalization (the rule the code applies
on the bounding-box path, `normaliza`) would leave `30` unchanged. -/
theorem C2_counterexample :
    (extrair_dados_geometricos
      { globalId := "G", name := some "P1", storey := none, representation := none,
        psets := [("TQS_Geometria",
          [("Dimensao_b1", mkRat 1 5), ("Dimensao_h1", 30)])] }).largura_cm = 20
  ∧ (extrair_dados_geometricos
      { globalId := "G", name := some "P1", storey := none, representation := none,
        psets := [("TQS_Geometria",
          [("Dimensao_b1", mkRat 1 5), ("Dimensao_h1", 30)])] }).profundidade_cm = 3000
  ∧ normaliza 30 = 30
  ∧ (3000 : ℚ) ≠ 30 :=
  ⟨by decide, by decide, by decide, by decide⟩

/-- C2 (amended): on the bounding-box path, width and depth are normalized
independently (each multiplied by 100 iff it is below 3.0) before sorting;
on the property-bag path the two values are sorted first and *both* are
multiplied by 100 iff the smaller is below 3.0, even when the larger is not
below 3.0. -/
theorem C2_theorem :
    (∀ (pilar : Column) (b h : ℚ), psetDims pilar.psets = some (b, h) →
      (extrair_dados_geometricos pilar).largura_cm
          = (if min b h < 3 then min b h * 100 else min b h)
        ∧ (extrair_dados_geometricos pilar).profundidade_cm
          = (if min b h < 3 then max b h * 100 else max b h))
  ∧ (∀ (pilar : Column) (p : ℚ × ℚ × ℚ) (t : List (ℚ × ℚ × ℚ)),
      psetDims pilar.psets = none → coletarColuna pilar = p :: t →
      (extrair_dados_geometricos pilar).largura_cm
          = min (normaliza (boxW p t)) (normaliza (boxD p t))
        ∧ (extrair_dados_geometricos pilar).profundidade_cm
          = max (normaliza (boxW p t)) (normaliza (boxD p t))) := by
  constructor
  · intro pilar b h hpd
    have hrw := resultadoPset_of_some _ _ _ hpd
    cases hc : coletarColuna pilar with
    | nil =>
      rw [extrair_eq_pset pilar hc, hrw]
      exact psetResultado_dims b h
    | cons p t =>
      have hsec : (resultadoPset pilar.psets).secao ≠ "N/A" := by
        rw [hrw]; exact psetResultado_secao_ne b h
      have hb := extrairBox_secao_of_ne (resultadoPset pilar.psets) p t hsec
      rw [extrair_eq_box pilar p t hc, hb.2.1, hb.2.2, hrw]
      exact psetResultado_dims b h
  · intro pilar p t hpd hc
    have hrw := resultadoPset_of_none _ hpd
    have hb := extrairBox_of_NA (resultadoPset pilar.psets) p t (by rw [hrw]; rfl)
    rw [extrair_eq_box pilar p t hc, hb.2.1, hb.2.2]
    exact ⟨rfl, rfl⟩

/-- C2 witness: both parts of the amended normalization rule applied at
concrete columns. -/
theorem C2_witness :
    ((extrair_dados_geometricos
        { globalId := "G", name := some "P1", storey := none, representation := none,
          psets := [("TQS_Geometria",
            [("Dimensao_b1", mkRat 1 5), ("Dimensao_h1", 30)])] }).largura_cm
        = (if min (mkRat 1 5) 30 < 3 then min (mkRat 1 5) 30 * 100 else min (mkRat 1 5) 30)
      ∧ (extrair_dados_geometricos
        { globalId := "G", name := some "P1", storey := none, representation := none,
          psets := [("TQS_Geometria",
            [("Dimensao_b1", mkRat 1 5), ("Dimensao_h1", 30)])] }).profundidade_cm
        = (if min (mkRat 1 5) 30 < 3 then max (mkRat 1 5) 30 * 100 else max (mkRat 1 5) 30))
  ∧ ((extrair_dados_geometricos
        { globalId := "G", name := some "P1", storey := none,
          representation := some [⟨"Body", [.point [0,0,0], .point [1,2,5]]⟩],
          psets := [] }).largura_cm
        = min (normaliza (boxW (0,0,0) [(1,2,5)])) (normaliza (boxD (0,0,0) [(1,2,5)]))
      ∧ (extrair_dados_geometricos
        { globalId := "G", name := some "P1", storey := none,
          representation := some [⟨"Body", [.point [0,0,0], .point [1,2,5]]⟩],
          psets := [] }).profundidade_cm
        = max (normaliza (boxW (0,0,0) [(1,2,5)])) (normaliza (boxD (0,0,0) [(1,2,5)]))) :=
  ⟨C2_theorem.1 _ (mkRat 1 5) 30 (by decide),
   C2_theorem.2 _ (0,0,0) [(1,2,5)] (by decide) (by decide)⟩

/-- C4 counterexample: with an authoritative property bag (`0.2 × 0.3`,
section `"20x30"`) the geometry tree is still traversed: height and planar
centroid of the resolver's output come from the bounding box (height `5`,
centroid X `0.5`), and differ from the same column without a
representation (height `0`). -/
theorem C4_counterexample :
    (extrair_dados_geometricos
      { globalId := "G", name := some "P1", storey := none,
        representation := some [⟨"Body", [.point [0,0,0], .point [1,2,5]]⟩],
        psets := [("TQS_Geometria",
          [("Dimensao_b1", mkRat 1 5), ("Dimensao_h1", mkRat 3 10)])] }).secao = "20x30"
  ∧ (extrair_dados_geometricos
      { globalId := "G", name := some "P1", storey := none,
        representation := some [⟨"Body", [.point [0,0,0], .point [1,2,5]]⟩],
        psets := [("TQS_Geometria",
          [("Dimensao_b1", mkRat 1 5), ("Dimensao_h1", mkRat 3 10)])] }).altura = 5
  ∧ (extrair_dados_geometricos
      { globalId := "G", name := some "P1", storey := none,
        representation := some [⟨"Body", [.point [0,0,0], .point [1,2,5]]⟩],
        psets := [("TQS_Geometria",
          [("Dimensao_b1", mkRat 1 5), ("Dimensao_h1", mkRat 3 10)])] }).coord_x = mkRat 1 2
  ∧ (extrair_dados_geometricos
      { globalId := "G", name := some "P1", storey := none, representation := none,
        psets := [("TQS_Geometria",
          [("Dimensao_b1", mkRat 1 5), ("Dimensao_h1", mkRat 3 10)])] }).altura = 0
  ∧ (extrair_dados_geometricos
      { globalId := "G", name := some "P1", storey := none, representation := none,
        psets := [("TQS_Geometria",
          [("Dimensao_b1", mkRat 1 5), ("Dimensao_h1", mkRat 3 10)])] }).secao = "20x30" :=
  ⟨by decide, by decide, by decide, by decide, by decide⟩

/-- C4 (amended): when the property bag carries both dimensions, its two
values are authoritative for the section string and the width/depth fields
— the bounding-box scan never overwrites them — but the scan still runs:
whenever points are collected, the resolver's height and planar centroid
come from the geometry tree. -/
theorem C4_theorem (pilar : Column) (b hv : ℚ)
    (h : psetDims pilar.psets = some (b, hv)) :
    ((extrair_dados_geometricos pilar).secao = (psetResultado b hv).secao
      ∧ (extrair_dados_geometricos pilar).largura_cm = (psetResultado b hv).largura_cm
      ∧ (extrair_dados_geometricos pilar).profundidade_cm
          = (psetResultado b hv).profundidade_cm)
  ∧ (∀ (p : ℚ × ℚ × ℚ) (t : List (ℚ × ℚ × ℚ)), coletarColuna pilar = p :: t →
      (extrair_dados_geometricos pilar).altura = roundTo 2 (boxH p t)
        ∧ (extrair_dados_geometricos pilar).coord_x
            = roundTo 2 ((qmin p.1 (t.map fun q => q.1)
                           + qmax p.1 (t.map fun q => q.1)) / 2)) := by
  have hrw := resultadoPset_of_some _ _ _ h
  constructor
  · cases hc : coletarColuna pilar with
    | nil =>
      rw [extrair_eq_pset pilar hc, hrw]
      exact ⟨rfl, rfl, rfl⟩
    | cons p t =>
      have hsec : (resultadoPset pilar.psets).secao ≠ "N/A" := by
        rw [hrw]; exact psetResultado_secao_ne b hv
      have hb := extrairBox_secao_of_ne (resultadoPset pilar.psets) p t hsec
      rw [extrair_eq_box pilar p t hc, hb.1, hb.2.1, hb.2.2, hrw]
      exact ⟨rfl, rfl, rfl⟩
  · intro p t hc
    have hb := extrairBox_box_fields (resultadoPset pilar.psets) p t
    rw [extrair_eq_box pilar p t hc, hb.1, hb.2.1]
    exact ⟨rfl, rfl⟩

/-- C4 witness: the amended statement at the concrete column of the
counterexample. -/
theorem C4_witness :
    (((extrair_dados_geometricos
        { globalId := "G", name := some "P1", storey := none,
          representation := some [⟨"Body", [.point [0,0,0], .point [1,2,5]]⟩],
          psets := [("TQS_Geometria",
            [("Dimensao_b1", mkRat 1 5), ("Dimensao_h1", mkRat 3 10)])] }).secao
        = (psetResultado (mkRat 1 5) (mkRat 3 10)).secao
      ∧ (extrair_dados_geometricos
        { globalId := "G", name := some "P1", storey := none,
          representation := some [⟨"Body", [.point [0,0,0], .point [1,2,5]]⟩],
          psets := [("TQS_Geometria",
            [("Dimensao_b1", mkRat 1 5), ("Dimensao_h1", mkRat 3 10)])] }).largura_cm
        = (psetResultado (mkRat 1 5) (mkRat 3 10)).largura_cm
      ∧ (extrair_dados_geometricos
        { globalId := "G", name := some "P1", storey := none,
          representation := some [⟨"Body", [.point [0,0,0], .point [1,2,5]]⟩],
          psets := [("TQS_Geometria",
            [("Dimensao_b1", mkRat 1 5), ("Dimensao_h1", mkRat 3 10)])] }).profundidade_cm
        = (psetResultado (mkRat 1 5) (mkRat 3 10)).profundidade_cm)
    ∧ (∀ (p : ℚ × ℚ × ℚ) (t : List (ℚ × ℚ × ℚ)),
        coletarColuna
          { globalId := "G", name := some "P1", storey := none,
            representation := some [⟨"Body", [.point [0,0,0], .point [1,2,5]]⟩],
            psets := [("TQS_Geometria",
              [("Dimensao_b1", mkRat 1 5), ("Dimensao_h1", mkRat 3 10)])] } = p :: t →
        (extrair_dados_geometricos
          { globalId := "G", name := some "P1", storey := none,
            representation := some [⟨"Body", [.point [0,0,0], .point [1,2,5]]⟩],
            psets := [("TQS_Geometria",
              [("Dimensao_b1", mkRat 1 5), ("Dimensao_h1", mkRat 3 10)])] }).altura
            = roundTo 2 (boxH p t)
          ∧ (extrair_dados_geometricos
          { globalId := "G", name := some "P1", storey := none,
            representation := some [⟨"Body", [.point [0,0,0], .point [1,2,5]]⟩],
            psets := [("TQS_Geometria",
              [("Dimensao_b1", mkRat 1 5), ("Dimensao_h1", mkRat 3 10)])] }).coord_x
            = roundTo 2 ((qmin p.1 (t.map fun q => q.1)
                           + qmax p.1 (t.map fun q => q.1)) / 2))) :=
  C4_theorem _ (mkRat 1 5) (mkRat 3 10) (by decide)

theorem insertRegistro_perm (x : Registro) (l : List Registro) :
    (insertRegistro x l).Perm (x :: l) := by
  induction l with
  | nil => exact List.Perm.refl _
  | cons c t ih =>
    unfold insertRegistro
    split
    · exact (ih.cons c).trans (List.Perm.swap x c t)
    · exact List.Perm.refl _

theorem sortRegistros_perm (l : List Registro) : (sortRegistros l).Perm l := by
  induction l with
  | nil => exact List.Perm.refl _
  | cons a t ih =>
    exact (insertRegistro_perm a (sortRegistros t)).trans (ih.cons a)

/-- C7: every record of `processar_ifc` carries the reinforcement obtained
by an exact lookup of its raw, unsanitized display name against the index
built from the file's bars; when the index has no entry for that name, the
field is the manual-check sentinel (the lookup is a total function — no
exception is possible in the model). -/
theorem C7_theorem (file : IfcFile) (proj : String) (r : Registro)
    (hr : r ∈ processar_ifc file proj) :
    r.armadura
        = obter_armadura_do_cache (indexar_todas_armaduras [] file.barras) r.nome
  ∧ (cacheLookup (indexar_todas_armaduras [] file.barras) r.nome = none →
      r.armadura = "Verificar Detalhamento") := by
  have hmem : r ∈ file.pilares.map
      (montarRegistro (indexar_todas_armaduras [] file.barras) proj) := by
    have hp := sortRegistros_perm
      (file.pilares.map (montarRegistro (indexar_todas_armaduras [] file.barras) proj))
    exact hp.mem_iff.mp hr
  obtain ⟨col, hcol, hrc⟩ := List.mem_map.mp hmem
  subst hrc
  refine ⟨rfl, ?_⟩
  intro hnone
  show obter_armadura_do_cache (indexar_todas_armaduras [] file.barras)
      ((montarRegistro (indexar_todas_armaduras [] file.barras) proj col).nome)
    = "Verificar Detalhamento"
  unfold obter_armadura_do_cache
  rw [hnone]

/-- C7 witness: a column named `P9` in a file with no bars gets the
sentinel. -/
theorem C7_witness :
    (montarRegistro (indexar_todas_armaduras [] []) "PR"
      { globalId := "A", name := some "P9", storey := some "F",
        representation := none, psets := [] }).armadura
    = "Verificar Detalhamento" := by
  have h := C7_theorem
    ⟨[], [{ globalId := "A", name := some "P9", storey := some "F",
            representation := none, psets := [] }]⟩ "PR"
    (montarRegistro (indexar_todas_armaduras [] []) "PR"
      { globalId := "A", name := some "P9", storey := some "F",
        representation := none, psets := [] })
    (by decide)
  exact h.2 (by decide)

theorem append_dash_inj {a b x y : List Char}
    (ha : ∀ c ∈ a, c ≠ '-') (hb : ∀ c ∈ b, c ≠ '-')
    (h : a ++ '-' :: x = b ++ '-' :: y) : a = b ∧ x = y := by
  induction a generalizing b with
  | nil =>
    cases b with
    | nil => simpa using h
    | cons d bt =>
      simp only [List.nil_append, List.cons_append, List.cons.injEq] at h
      exact absurd h.1.symm (hb d (List.mem_cons_self d bt))
  | cons c ct ih =>
    cases b with
    | nil =>
      simp only [List.nil_append, List.cons_append, List.cons.injEq] at h
      exact absurd h.1 (ha c (List.mem_cons_self c ct))
    | cons d bt =>
      simp only [List.cons_append, List.cons.injEq] at h
      obtain ⟨h1, h2⟩ := h
      obtain ⟨hab, hxy⟩ := ih (fun e he => ha e (List.mem_cons_of_mem c he))
        (fun e he => hb e (List.mem_cons_of_mem d he)) h2
      exact ⟨by rw [h1, hab], hxy⟩

theorem pyUpperChar_ne_dash (c : Char) (h : isAlnumChar c = true) :
    pyUpperChar c ≠ '-' := by
  unfold pyUpperChar
  split
  · rename_i hc
    intro heq
    obtain ⟨h1, h2⟩ := hc
    generalize hgen : c.toNat = n at h1 h2 heq
    interval_cases n <;> exact absurd heq (by decide)
  · intro heq
    rw [heq] at h
    exact absurd h (by decide)

theorem limpar_no_dash (texto : Option String) :
    ('-' : Char) ∉ (limpar_string texto).data := by
  cases texto with
  | none => decide
  | some t =>
    by_cases he : t = ""
    · simp only [limpar_string, if_pos he]
      decide
    · simp only [limpar_string, if_neg he]
      intro hmem
      have hmem' : '-' ∈ (t.data.filter isAlnumChar).map pyUpperChar := hmem
      obtain ⟨c, hc, hup⟩ := List.mem_map.mp hmem'
      exact pyUpperChar_ne_dash c (List.mem_filter.mp hc).2 hup

theorem id_unico_ne (n1 g1 p1 n2 g2 p2 proj : String)
    (hg : g1 ≠ g2)
    (h1 : ('-' : Char) ∉ g1.data) (h2 : ('-' : Char) ∉ g2.data) :
    id_unico_pilar n1 g1 p1 proj ≠ id_unico_pilar n2 g2 p2 proj := by
  intro h
  have hdata := congrArg String.data h
  simp only [id_unico_pilar, String.data_append, List.append_assoc] at hdata
  simp only [show ("-" : String).data = ['-'] from rfl, List.singleton_append] at hdata
  obtain ⟨_, hrest⟩ := append_dash_inj
    (fun c hc he => limpar_no_dash (some n1) (he ▸ hc))
    (fun c hc he => limpar_no_dash (some n2) (he ▸ hc)) hdata
  obtain ⟨hgd, _⟩ := append_dash_inj
    (fun c hc he => h1 (he ▸ hc))
    (fun c hc he => h2 (he ▸ hc)) hrest
  apply hg
  calc g1 = String.mk g1.data := rfl
    _ = String.mk g2.data := by rw [hgd]
    _ = g2 := rfl

/-- C9: within one run, when the columns carry pairwise distinct raw
identifiers (and, as IFC GlobalIds, identifiers free of the `-` delimiter),
the composite keys `ID_Unico` of all produced records are pairwise
distinct — in particular two columns both named `P1` on different floors
with distinct identifiers cannot collide, since the sanitized components
never contain the delimiter. -/
theorem C9_theorem (file : IfcFile) (proj : String)
    (hg : file.pilares.Pairwise (fun a b => a.globalId ≠ b.globalId))
    (hd : ∀ c ∈ file.pilares, ('-' : Char) ∉ c.globalId.data) :
    (processar_ifc file proj).Pairwise (fun r s => r.idUnico ≠ s.idUnico) := by
  have hperm := sortRegistros_perm
    (file.pilares.map (montarRegistro (indexar_todas_armaduras [] file.barras) proj))
  refine (hperm.pairwise_iff (fun hab => fun he => hab he.symm)).mpr ?_
  rw [List.pairwise_map]
  refine hg.imp_of_mem ?_
  intro a b ha hb hne
  show id_unico_pilar (pyStrOr a.name "S/N") a.globalId (a.storey.getD "Térreo") proj
      ≠ id_unico_pilar (pyStrOr b.name "S/N") b.globalId (b.storey.getD "Térreo") proj
  exact id_unico_ne _ _ _ _ _ _ _ hne (hd a ha) (hd b hb)

/-- C9 witness: two columns both named `P1` on different floors, with
distinct dash-free identifiers, yield records with distinct `ID_Unico`. -/
theorem C9_witness :
    (processar_ifc
      ⟨[], [{ globalId := "AAA", name := some "P1", storey := some "F1",
              representation := none, psets := [] },
            { globalId := "BBB", name := some "P1", storey := some "F2",
              representation := none, psets := [] }]⟩ "PR").Pairwise
      (fun r s => r.idUnico ≠ s.idUnico) :=
  C9_theorem
    ⟨[], [{ globalId := "AAA", name := some "P1", storey := some "F1",
            representation := none, psets := [] },
          { globalId := "BBB", name := some "P1", storey := some "F2",
            representation := none, psets := [] }]⟩ "PR"
    (by decide)
    (by decide)

theorem char_eq_of_toNat_eq {a b : Char} (h : a.toNat = b.toNat) : a = b := by
  have h1 := Char.ofNat_toNat a
  have h2 := Char.ofNat_toNat b
  rw [← h1, ← h2, h]

theorem charListLt_asymm {a b : List Char} (h : charListLt a b = true) :
    charListLt b a = false := by
  induction a generalizing b with
  | nil =>
    cases b with
    | nil => simp [charListLt] at h
    | cons y t => simp [charListLt]
  | cons x s ih =>
    cases b with
    | nil => simp [charListLt] at h
    | cons y t =>
      simp only [charListLt, Bool.or_eq_true, decide_eq_true_eq, Bool.and_eq_true,
        beq_iff_eq] at h
      rcases h with hlt | ⟨he, hst⟩
      · have h1 : ¬ y.toNat < x.toNat := by omega
        have h2 : ¬ y = x := fun hyx => by subst hyx; omega
        simp [charListLt, h1, h2]
      · subst he
        have h1 : ¬ x.toNat < x.toNat := by omega
        simp [charListLt, h1, ih hst]

theorem charListLt_irrefl (a : List Char) : charListLt a a = false := by
  cases h : charListLt a a with
  | false => rfl
  | true => exact absurd (charListLt_asymm h) (by simp [h])

theorem charListLt_cotrans {a c : List Char} (h : charListLt a c = true)
    (b : List Char) : charListLt a b = true ∨ charListLt b c = true := by
  induction a generalizing b c with
  | nil =>
    cases c with
    | nil => simp [charListLt] at h
    | cons z u =>
      cases b with
      | nil => right; simp [charListLt]
      | cons y t => left; simp [charListLt]
  | cons x s ih =>
    cases c with
    | nil => simp [charListLt] at h
    | cons z u =>
      cases b with
      | nil => right; simp [charListLt]
      | cons y t =>
        simp only [charListLt, Bool.or_eq_true, decide_eq_true_eq, Bool.and_eq_true,
          beq_iff_eq] at h ⊢
        rcases h with hxz | ⟨hxz, hsu⟩
        · by_cases hxy : x.toNat < y.toNat
          · exact Or.inl (Or.inl hxy)
          · exact Or.inr (Or.inl (by omega))
        · subst hxz
          by_cases hxy : x.toNat < y.toNat
          · exact Or.inl (Or.inl hxy)
          · by_cases hyx : y.toNat < x.toNat
            · exact Or.inr (Or.inl hyx)
            · have hxy' : y = x := char_eq_of_toNat_eq (by omega)
              subst hxy'
              rcases ih hsu t with hst | htu
              · exact Or.inl (Or.inr ⟨rfl, hst⟩)
              · exact Or.inr (Or.inr ⟨rfl, htu⟩)

theorem charListLt_connex {a b : List Char} (h1 : charListLt a b = false)
    (h2 : charListLt b a = false) : a = b := by
  induction a generalizing b with
  | nil =>
    cases b with
    | nil => rfl
    | cons y t => simp [charListLt] at h1
  | cons x s ih =>
    cases b with
    | nil => simp [charListLt] at h2
    | cons y t =>
      simp only [charListLt, Bool.or_eq_false_iff, decide_eq_false_iff_not,
        Bool.and_eq_false_iff, beq_eq_false_iff_ne, ne_eq] at h1 h2
      obtain ⟨hxy, hrest1⟩ := h1
      obtain ⟨hyx, hrest2⟩ := h2
      have hxy' : x = y := char_eq_of_toNat_eq (by omega)
      subst hxy'
      rcases hrest1 with hne | hst
      · exact absurd rfl hne
      · rcases hrest2 with hne | hts
        · exact absurd rfl hne
        · rw [ih hst hts]

theorem natKeyLt_asymm {a b : NatKey} (h : natKeyLt a b = true) :
    natKeyLt b a = false := by
  cases a with
  | num m =>
    cases b with
    | num n =>
      simp only [natKeyLt, decide_eq_true_eq] at h
      simp only [natKeyLt, decide_eq_false_iff_not]
      omega
    | str t => rfl
  | str s =>
    cases b with
    | num n => simp [natKeyLt] at h
    | str t =>
      simp only [natKeyLt] at h ⊢
      exact charListLt_asymm h

theorem natKeyLt_cotrans {a c : NatKey} (h : natKeyLt a c = true) (b : NatKey) :
    natKeyLt a b = true ∨ natKeyLt b c = true := by
  cases a with
  | num m =>
    cases c with
    | num p =>
      simp only [natKeyLt, decide_eq_true_eq] at h
      cases b with
      | num n =>
        simp only [natKeyLt, decide_eq_true_eq]
        omega
      | str t => left; rfl
    | str u =>
      cases b with
      | num n => right; rfl
      | str t => left; rfl
  | str s =>
    cases c with
    | num p => simp [natKeyLt] at h
    | str u =>
      simp only [natKeyLt] at h
      cases b with
      | num n => right; rfl
      | str t =>
        simp only [natKeyLt]
        rcases charListLt_cotrans h t with h1 | h2
        · exact Or.inl h1
        · exact Or.inr h2

theorem natKeysLt_asymm {X Y : List NatKey} (h : natKeysLt X Y = true) :
    natKeysLt Y X = false := by
  induction X generalizing Y with
  | nil =>
    cases Y with
    | nil => simp [natKeysLt] at h
    | cons b t => rfl
  | cons a s ih =>
    cases Y with
    | nil => simp [natKeysLt] at h
    | cons b t =>
      simp only [natKeysLt, Bool.or_eq_true, Bool.and_eq_true, Bool.not_eq_true'] at h
      rcases h with hab | ⟨hba, hst⟩
      · simp [natKeysLt, natKeyLt_asymm hab, hab]
      · simp [natKeysLt, hba, ih hst]

theorem natKeysLt_cotrans {X Z : List NatKey} (h : natKeysLt X Z = true)
    (Y : List NatKey) : natKeysLt X Y = true ∨ natKeysLt Y Z = true := by
  induction X generalizing Y Z with
  | nil =>
    cases Z with
    | nil => simp [natKeysLt] at h
    | cons c u =>
      cases Y with
      | nil => right; simp [natKeysLt]
      | cons b t => left; simp [natKeysLt]
  | cons a s ih =>
    cases Z with
    | nil => simp [natKeysLt] at h
    | cons c u =>
      cases Y with
      | nil => right; simp [natKeysLt]
      | cons b t =>
        simp only [natKeysLt, Bool.or_eq_true, Bool.and_eq_true, Bool.not_eq_true'] at h ⊢
        rcases h with hac | ⟨hca, hsu⟩
        · rcases natKeyLt_cotrans hac b with h1 | h2
          · exact Or.inl (Or.inl h1)
          · exact Or.inr (Or.inl h2)
        · by_cases hab : natKeyLt a b = true
          · exact Or.inl (Or.inl hab)
          · by_cases hba : natKeyLt b a = true
            · rcases natKeyLt_cotrans hba c with h1 | h2
              · exact Or.inr (Or.inl h1)
              · rw [hca] at h2
                exact absurd h2 (by simp)
            · have hba' : natKeyLt b a = false := by
                revert hba
                cases natKeyLt b a <;> simp
              have hcb : natKeyLt c b = false := by
                cases hx : natKeyLt c b with
                | false => rfl
                | true =>
                  rcases natKeyLt_cotrans hx a with h1 | h2
                  · rw [hca] at h1
                    exact absurd h1 (by simp)
                  · exact absurd h2 hab
              rcases ih hsu t with h1 | h2
              · exact Or.inl (Or.inr ⟨hba', h1⟩)
              · exact Or.inr (Or.inr ⟨hcb, h2⟩)

theorem string_eq_of_data_eq {s t : String} (h : s.data = t.data) : s = t := by
  cases s; cases t; exact congrArg String.mk h

theorem registroLt_asymm {a b : Registro} (h : registroLt a b = true) :
    registroLt b a = false := by
  simp only [registroLt, Bool.or_eq_true, Bool.and_eq_true, beq_iff_eq] at h
  rcases h with hp | ⟨hpe, hk⟩
  · have h1 := charListLt_asymm hp
    have h2 : ¬ b.pavimento = a.pavimento := by
      intro he
      rw [he] at hp
      exact absurd hp (by simp [charListLt_irrefl])
    simp [registroLt, h1, h2]
  · simp [registroLt, hpe, natKeysLt_asymm hk, charListLt_irrefl]

theorem registroLt_cotrans {a c : Registro} (h : registroLt a c = true)
    (b : Registro) : registroLt a b = true ∨ registroLt b c = true := by
  simp only [registroLt, Bool.or_eq_true, Bool.and_eq_true, beq_iff_eq] at h ⊢
  rcases h with hp | ⟨hpe, hk⟩
  · rcases charListLt_cotrans hp b.pavimento.data with h1 | h2
    · exact Or.inl (Or.inl h1)
    · exact Or.inr (Or.inl h2)
  · by_cases h1 : charListLt a.pavimento.data b.pavimento.data = true
    · exact Or.inl (Or.inl h1)
    · by_cases h2 : charListLt b.pavimento.data c.pavimento.data = true
      · exact Or.inr (Or.inl h2)
      · have h2' : charListLt b.pavimento.data c.pavimento.data = false := by
          revert h2
          cases charListLt b.pavimento.data c.pavimento.data <;> simp
        have h1' : charListLt a.pavimento.data b.pavimento.data = false := by
          revert h1
          cases charListLt a.pavimento.data b.pavimento.data <;> simp
        have h3 : charListLt b.pavimento.data a.pavimento.data = false := by
          rw [hpe]
          exact h2'
        have hba : b.pavimento = a.pavimento :=
          string_eq_of_data_eq (charListLt_connex h3 h1')
        rcases natKeysLt_cotrans hk (natural_keys b.nome) with h4 | h5
        · exact Or.inl (Or.inr ⟨hba.symm, h4⟩)
        · exact Or.inr (Or.inr ⟨hba.trans hpe, h5⟩)

theorem insertRegistro_pairwise (x : Registro) (l : List Registro)
    (h : l.Pairwise (fun a b => registroLt b a = false)) :
    (insertRegistro x l).Pairwise (fun a b => registroLt b a = false) := by
  induction l with
  | nil => simp [insertRegistro]
  | cons c t ih =>
    rw [List.pairwise_cons] at h
    obtain ⟨hc, ht⟩ := h
    unfold insertRegistro
    split
    · rename_i hcx
      rw [List.pairwise_cons]
      refine ⟨?_, ih ht⟩
      intro y hy
      rcases List.mem_cons.mp ((insertRegistro_perm x t).mem_iff.mp hy) with rfl | hyt
      · exact registroLt_asymm hcx
      · exact hc y hyt
    · rename_i hcx
      rw [List.pairwise_cons]
      constructor
      · intro y hy
        rcases List.mem_cons.mp hy with rfl | hyt
        · revert hcx
          cases registroLt y x <;> simp
        · cases hyx : registroLt y x with
          | false => rfl
          | true =>
            rcases registroLt_cotrans hyx c with h1 | h2
            · rw [hc y hyt] at h1
              exact absurd h1 (by simp)
            · exact absurd h2 hcx
      · exact List.pairwise_cons.mpr ⟨hc, ht⟩

theorem sortRegistros_pairwise (l : List Registro) :
    (sortRegistros l).Pairwise (fun a b => registroLt b a = false) := by
  induction l with
  | nil => simp [sortRegistros]
  | cons a t ih => exact insertRegistro_pairwise a (sortRegistros t) ih

/-- C8: (i) for every file and project reference, the output sequence of
`processar_ifc` is sorted by floor name first and by natural column-name
order among equal floors: no later record's floor name is lexicographically
smaller, and when two records share a floor name the later one's
`natural_keys` key is not smaller (digit runs compared numerically);
(ii) with one floor, for any input order of the columns named `P10`, `P2`,
`P1`, `P12`, the output order is `P1, P2, P10, P12`; (iii) floors dominate
names: a column `P10` on floor `F1` precedes a column `P2` on floor `F2`
even though `P2` is the naturally smaller name. -/
theorem C8_theorem :
    (∀ (file : IfcFile) (proj : String),
      (processar_ifc file proj).Pairwise (fun a b =>
        charListLt b.pavimento.data a.pavimento.data = false
        ∧ (a.pavimento = b.pavimento →
            natKeysLt (natural_keys b.nome) (natural_keys a.nome) = false)))
  ∧ (∀ cols : List Column, cols.Perm
      [{ globalId := "A", name := some "P10", storey := some "F",
         representation := none, psets := [] },
       { globalId := "B", name := some "P2", storey := some "F",
         representation := none, psets := [] },
       { globalId := "C", name := some "P1", storey := some "F",
         representation := none, psets := [] },
       { globalId := "D", name := some "P12", storey := some "F",
         representation := none, psets := [] }] →
      (processar_ifc ⟨[], cols⟩ "PR").map (fun r => r.nome)
        = ["P1", "P2", "P10", "P12"])
  ∧ (processar_ifc
      ⟨[], [{ globalId := "A", name := some "P2", storey := some "F2",
              representation := none, psets := [] },
            { globalId := "B", name := some "P10", storey := some "F1",
              representation := none, psets := [] }]⟩ "PR").map
        (fun r => (r.pavimento, r.nome)) = [("F1", "P10"), ("F2", "P2")] := by
  refine ⟨?_, ?_, by decide⟩
  · intro file proj
    have hp := sortRegistros_pairwise
      (file.pilares.map (montarRegistro (indexar_todas_armaduras [] file.barras) proj))
    refine hp.imp ?_
    intro a b hab
    constructor
    · revert hab
      unfold registroLt
      cases charListLt b.pavimento.data a.pavimento.data <;> simp
    · intro hpe
      have hbeq : (b.pavimento == a.pavimento) = true := beq_iff_eq.mpr hpe.symm
      revert hab
      unfold registroLt
      rw [hbeq]
      cases natKeysLt (natural_keys b.nome) (natural_keys a.nome) <;> simp
  · intro cols h
    have hmem : cols ∈ List.permutations'
        [{ globalId := "A", name := some "P10", storey := some "F",
           representation := none, psets := [] },
         { globalId := "B", name := some "P2", storey := some "F",
           representation := none, psets := [] },
         { globalId := "C", name := some "P1", storey := some "F",
           representation := none, psets := [] },
         { globalId := "D", name := some "P12", storey := some "F",
           representation := none, psets := [] }] := List.mem_permutations'.mpr h
    have hall : ∀ x ∈ List.permutations'
        [{ globalId := "A", name := some "P10", storey := some "F",
           representation := none, psets := [] },
         { globalId := "B", name := some "P2", storey := some "F",
           representation := none, psets := [] },
         { globalId := "C", name := some "P1", storey := some "F",
           representation := none, psets := [] },
         { globalId := "D", name := some "P12", storey := some "F",
           representation := none, psets := [] }],
        (processar_ifc ⟨[], x⟩ "PR").map (fun r => r.nome)
          = ["P1", "P2", "P10", "P12"] := by decide
    exact hall cols hmem

/-- C8 witness: the claim's input order `P10, P2, P1, P12`. -/
theorem C8_witness :
    (processar_ifc
      ⟨[], [{ globalId := "A", name := some "P10", storey := some "F",
              representation := none, psets := [] },
            { globalId := "B", name := some "P2", storey := some "F",
              representation := none, psets := [] },
            { globalId := "C", name := some "P1", storey := some "F",
              representation := none, psets := [] },
            { globalId := "D", name := some "P12", storey := some "F",
              representation := none, psets := [] }]⟩ "PR").map (fun r => r.nome)
      = ["P1", "P2", "P10", "P12"] :=
  C8_theorem.2.1 _ (List.Perm.refl _)
